import Mathlib

/-!
Shallow embedding of the pollen service (three Go source variants:
`main.go`, `part_000`, `part_001`).

The HTML document handled by goquery is abstracted to the structure the
extraction code observes: a document is the list of blocks matched by
`doc.Find("div.tx-dmi-data-store table table")`; each block is the list of
its `tr` rows; a row carries the list of its `td` cell texts together with
its own full visible text (goquery `Selection.Text()` of the row).

Machine integers (`int` on a 64-bit platform) are modelled as `Int` with
explicit range checks where `strconv.Atoi` performs them.
-/

namespace Pollen

/-- A `tr` row as the extraction code observes it: the texts of its `td`
children (in order) and the full text of the row selection. -/
structure Row where
  cells : List String
  text : String
deriving Repr, DecidableEq

/-- A forecast block: one node matched by
`doc.Find("div.tx-dmi-data-store table table")`, as the list of its rows. -/
structure Blk where
  rows : List Row
deriving Repr, DecidableEq

/-- Go struct `forecastValue { Name string; Value int }`. -/
structure forecastValue where
  name : String
  value : Int
deriving Repr, DecidableEq

/-- Go struct `forecast { CityName, ForecastText string; Values []forecastValue }`. -/
structure forecast where
  cityName : String
  forecastText : String
  values : List forecastValue
deriving Repr, DecidableEq

/-- `sel.Find("td").First().Text()`: text of the first cell, `""` when the
selection is empty. -/
def tdFirst (r : Row) : String := r.cells.head?.getD ""

/-- `sel.Find("td").Last().Text()`: text of the last cell, `""` when the
selection is empty. -/
def tdLast (r : Row) : String := r.cells.getLast?.getD ""

/-- `selection.Find("tr").First().Text()`: full text of the first row of a
block, `""` for a block with no rows. -/
def trFirstText (b : Blk) : String := (b.rows.head?.map Row.text).getD ""

/-- `selection.Find("tr").Last().Text()`: full text of the last row of a
block, `""` for a block with no rows. -/
def trLastText (b : Blk) : String := (b.rows.getLast?.map Row.text).getD ""

/-- Decimal digit run: `some` of its value when the list is a non-empty
run of ASCII digits, `none` otherwise (as in `strconv.ParseInt` base 10). -/
def parseDigits (cs : List Char) : Option Nat :=
  match cs with
  | [] => none
  | _ =>
    if cs.all (fun c => c.isDigit) then
      some (cs.foldl (fun n c => n * 10 + (c.toNat - 48)) 0)
    else none

/-- `strconv.Atoi` on a 64-bit platform: optional single leading `+`/`-`
sign, then a non-empty ASCII digit run, value within `int64` range;
`none` models a non-nil error (syntax or range). -/
def atoi (s : String) : Option Int :=
  match s.data with
  | [] => none
  | c :: cs =>
    if c = '-' then
      match parseDigits cs with
      | none => none
      | some n => if n ≤ 2 ^ 63 then some (-(n : Int)) else none
    else
      match parseDigits (if c = '+' then cs else c :: cs) with
      | none => none
      | some n => if n ≤ 2 ^ 63 - 1 then some ((n : Int)) else none

/-- The per-row value logic of the extraction loop: a `"-"` placeholder
yields `0`; otherwise `strconv.Atoi` must succeed, and failure carries the
offending string (the Go code wraps it in the message
`unable to parse pollen value for "%s": %v`; the model keeps the string). -/
def parseValue (s : String) : Except String Int :=
  if s = "-" then .ok 0
  else
    match atoi s with
    | some v => .ok v
    | none => .error s

/-- The `selection.Find("tr").Each` loop of the extraction code: rows whose
`td` count differs from 2 are skipped; a two-cell row becomes a
`forecastValue` from its first and last cell; the first value that fails to
parse makes the whole traversal fail (in the Go code the flag `err` stops
all later rows and is then propagated wholesale, so the net result is the
first offending row's error). -/
def extractValues : List Row → Except String (List forecastValue)
  | [] => .ok []
  | r :: rs =>
    if r.cells.length = 2 then
      match parseValue (tdLast r) with
      | .error e => .error e
      | .ok v =>
        match extractValues rs with
        | .error e => .error e
        | .ok vs => .ok ({ name := tdFirst r, value := v } :: vs)
    else extractValues rs

/-- One iteration of the outer `doc.Find(...).Each` loop: build the
`forecast` for one block, with `CityName` from the first row, `ForecastText`
from the last row, and the values from the row loop. -/
def extractBlock (b : Blk) : Except String forecast :=
  match extractValues b.rows with
  | .error e => .error e
  | .ok vs => .ok { cityName := trFirstText b, forecastText := trLastText b, values := vs }

/-- The full outer loop over all matched blocks: after the first failing
block `outerErr` makes every later block a no-op and the whole extraction
returns that error and no slice; on success the forecasts appear in
document order. This is the extraction pipeline of `rebuildCache` in
`part_001`; the copies in `main.go` and `part_000` are transcribed
separately below for the equivalence claim. -/
def extractForecasts : List Blk → Except String (List forecast)
  | [] => .ok []
  | b :: bs =>
    match extractBlock b with
    | .error e => .error e
    | .ok f =>
      match extractForecasts bs with
      | .error e => .error e
      | .ok fs => .ok (f :: fs)

/-! ### Cache store (`part_001`: `cache`; `part_000`: `cache` + `cacheTimestamp`)

The RW-mutexed globals are modelled as explicit state records; each
lock-protected critical section of the Go code becomes one state-transition
function, so the sequential model reflects the serialization that the locks
enforce. -/

/-- State of `part_001`: `var cache []forecast`. `none` models the nil slice
(no successful rebuild yet); `some fs` a published snapshot, which may be
the empty non-nil slice `some []`. -/
structure CacheState where
  cache : Option (List forecast)
deriving Repr, DecidableEq

/-- State of `part_000`: `var cache []forecast; var cacheTimestamp time.Time`.
The timestamp is modelled as a `Nat` (zero value at process start). -/
structure CacheState0 where
  cache : Option (List forecast)
  cacheTimestamp : Nat
deriving Repr, DecidableEq

/-- Process start: nil cache. -/
def initialCache : CacheState := ⟨none⟩

/-- Process start for `part_000`: nil cache, zero-valued timestamp. -/
def initialCache0 : CacheState0 := ⟨none, 0⟩

/-- The `CacheEmpty` error message of `fetchCache`. -/
def cacheEmptyMsg : String := "Cache is empty, try again in a few seconds"

/-- `fetchCache` (identical in `part_000` and `part_001`): under the read
lock, a nil cache spawns `go rebuildCache()` and returns the error at once;
otherwise the snapshot is returned. The spawned fire-and-forget rebuild is
modelled as the `Bool` component (one trigger signal emitted to the
scheduler); the state is not modified and the returned value does not
depend on the outcome of the triggered rebuild, which is the non-blocking
contract. -/
def fetchCache (s : CacheState) : Except String (List forecast) × Bool :=
  match s.cache with
  | none => (.error cacheEmptyMsg, true)
  | some fs => (.ok fs, false)

/-- `rebuildCache` of `part_001`: one critical section under the write
lock. A fetch error or an extraction error returns that error and leaves
`cache` untouched; on success `cache` is replaced wholesale by the new
(non-nil) slice. -/
def rebuildCache (fetched : Except String (List Blk)) (s : CacheState) :
    Except String Unit × CacheState :=
  match fetched with
  | .error e => (.error ("error fetching from URL: " ++ e), s)
  | .ok blocks =>
    match extractForecasts blocks with
    | .error e => (.error e, s)
    | .ok fs => (.ok (), ⟨some fs⟩)

/-- `rebuildCache` of `part_000`: as in `part_001`, and on success
`cacheTimestamp` is additionally set to `time.Now().UTC()` (modelled by the
`now` argument); both fields are untouched on failure. -/
def rebuildCache0 (fetched : Except String (List Blk)) (now : Nat) (s : CacheState0) :
    Except String Unit × CacheState0 :=
  match fetched with
  | .error e => (.error ("error fetching from URL: " ++ e), s)
  | .ok blocks =>
    match extractForecasts blocks with
    | .error e => (.error e, s)
    | .ok fs => (.ok (), ⟨some fs, now⟩)

/-- A sequence of rebuild attempts applied in order to a cache state
(the write lock totally orders them). -/
def runRebuilds (inputs : List (Except String (List Blk))) (s : CacheState) : CacheState :=
  inputs.foldl (fun st inp => (rebuildCache inp st).2) s

/-- A rebuild attempt that succeeds: the fetch came back and every
measurement value of the document parses. -/
def attemptSucceeds (inp : Except String (List Blk)) : Prop :=
  ∃ blocks, inp = .ok blocks ∧ ∃ fs, extractForecasts blocks = .ok fs

/-- A rebuild attempt that fails: the fetch itself failed, or the
extraction of the fetched document fails. -/
def attemptFails (inp : Except String (List Blk)) : Prop :=
  (∃ e, inp = .error e) ∨ (∃ blocks, inp = .ok blocks ∧ ∃ e, extractForecasts blocks = .error e)

/-! ### Periodic refresh scheduler (`refreshCacheJob` in `part_000` and `part_001`) -/

/-- Outcome of one scheduler reaction to a rebuild result: `log.Fatalln`
terminates the process; `log.Println` continues to the next tick. -/
inductive JobStep where
  | terminated (e : String)
  | continuedTick
deriving Repr, DecidableEq

/-- `refreshCacheJob` of `part_000`, reaction to one rebuild result:
`log.Fatalln("Error rebuilding cache:", err)` on error (process exit),
`log.Println("Cache rebuild successful")` then wait for the tick on
success. -/
def refreshStep_part0 (r : Except String Unit) : JobStep :=
  match r with
  | .error e => .terminated e
  | .ok _ => .continuedTick

/-- `refreshCacheJob` of `part_001`, reaction to one rebuild result: the
body is textually identical to `part_000`: `log.Fatalln` on error,
`log.Println` on success. -/
def refreshStep_part1 (r : Except String Unit) : JobStep :=
  match r with
  | .error e => .terminated e
  | .ok _ => .continuedTick

/-- The two phases of one loop iteration of `refreshCacheJob`. -/
inductive JobPhase where
  | rebuildPhase
  | tickPhase
deriving Repr, DecidableEq

/-- Loop body of `part_000`: `rebuildCache(); ...; <-time.Tick(10 * time.Minute)`
— rebuild first (so the first rebuild happens immediately at startup),
then wait. -/
def loopBody_part0 : List JobPhase := [.rebuildPhase, .tickPhase]

/-- Loop body of `part_001`: `for range time.Tick(10 * time.Minute) { rebuildCache() ... }`
— wait for a tick first (so the first rebuild happens only after 10
minutes), then rebuild. -/
def loopBody_part1 : List JobPhase := [.tickPhase, .rebuildPhase]

/-! ### Separate transcriptions of the extraction pipeline of `main.go`
and `part_000`, for the equivalence claim. The Go text of the two loops is
identical to the `part_001` copy embedded above; each is transcribed again
from its own file. -/

/-- Value logic of the row loop in `fetchParseAndJsonify` (`main.go`). -/
def parseValue_main (s : String) : Except String Int :=
  if s = "-" then .ok 0
  else
    match atoi s with
    | some v => .ok v
    | none => .error s

/-- Row loop of `fetchParseAndJsonify` (`main.go`). -/
def extractValues_main : List Row → Except String (List forecastValue)
  | [] => .ok []
  | r :: rs =>
    if r.cells.length = 2 then
      match parseValue_main (tdLast r) with
      | .error e => .error e
      | .ok v =>
        match extractValues_main rs with
        | .error e => .error e
        | .ok vs => .ok ({ name := tdFirst r, value := v } :: vs)
    else extractValues_main rs

/-- Block loop of `fetchParseAndJsonify` (`main.go`). -/
def extractForecasts_main : List Blk → Except String (List forecast)
  | [] => .ok []
  | b :: bs =>
    match extractValues_main b.rows with
    | .error e => .error e
    | .ok vs =>
      match extractForecasts_main bs with
      | .error e => .error e
      | .ok fs => .ok ({ cityName := trFirstText b, forecastText := trLastText b, values := vs } :: fs)

/-- Value logic of the row loop in `rebuildCache` (`part_000`). -/
def parseValue_part0 (s : String) : Except String Int :=
  if s = "-" then .ok 0
  else
    match atoi s with
    | some v => .ok v
    | none => .error s

/-- Row loop of `rebuildCache` (`part_000`). -/
def extractValues_part0 : List Row → Except String (List forecastValue)
  | [] => .ok []
  | r :: rs =>
    if r.cells.length = 2 then
      match parseValue_part0 (tdLast r) with
      | .error e => .error e
      | .ok v =>
        match extractValues_part0 rs with
        | .error e => .error e
        | .ok vs => .ok ({ name := tdFirst r, value := v } :: vs)
    else extractValues_part0 rs

/-- Block loop of `rebuildCache` (`part_000`). -/
def extractForecasts_part0 : List Blk → Except String (List forecast)
  | [] => .ok []
  | b :: bs =>
    match extractValues_part0 b.rows with
    | .error e => .error e
    | .ok vs =>
      match extractForecasts_part0 bs with
      | .error e => .error e
      | .ok fs => .ok ({ cityName := trFirstText b, forecastText := trLastText b, values := vs } :: fs)

/-! ### Concrete inputs used by witnesses and counterexamples -/

/-- A measurement row whose value text parses: `("Birk","12")`. -/
def rowBirk12 : Row := ⟨["Birk", "12"], "Birk 12"⟩

/-- A measurement row with the placeholder: `("El","-")`. -/
def rowElDash : Row := ⟨["El", "-"], "El -"⟩

/-- A one-cell city header row. -/
def rowCityAarhus : Row := ⟨["Aarhus"], "Aarhus"⟩

/-- The Scenario A block: city `"Aarhus"`, rows `[("Birk","12"),("El","-")]`. -/
def aarhusBlock : Blk := ⟨[rowCityAarhus, rowBirk12, rowElDash]⟩

/-- A document holding exactly the Scenario A block. -/
def aarhusDoc : List Blk := [aarhusBlock]

/-- The extraction result of `aarhusDoc`. -/
def aarhusResult : List forecast :=
  [⟨"Aarhus", "El -", [⟨"Birk", 12⟩, ⟨"El", 0⟩]⟩]

/-- A measurement row whose value text `"abc"` is neither `"-"` nor an
integer. -/
def rowElAbc : Row := ⟨["El", "abc"], "El abc"⟩

/-- A document whose only block contains the unparsable row. -/
def badDoc : List Blk := [⟨[rowElAbc]⟩]

/-- A measurement row carrying a negative integer literal. -/
def rowNeg : Row := ⟨["X", "-5"], "X -5"⟩

/-- A document whose only block contains the negative-valued row. -/
def negDoc : List Blk := [⟨[rowNeg]⟩]

/-- A block whose only row has three cells (no measurement rows). -/
def hdrBlock : Blk := ⟨[⟨["a", "b", "c"], "abc row"⟩]⟩

/-! ### Helper lemmas -/

lemma parseValue_error_iff {s e : String} :
    parseValue s = .error e ↔ s ≠ "-" ∧ atoi s = none ∧ e = s := by
  unfold parseValue
  by_cases hd : s = "-"
  · simp [hd]
  · cases ha : atoi s <;> simp [hd, ha, eq_comm]

lemma parseValue_ok_iff {s : String} {v : Int} :
    parseValue s = .ok v ↔ (s = "-" ∧ v = 0) ∨ (s ≠ "-" ∧ atoi s = some v) := by
  unfold parseValue
  by_cases hd : s = "-"
  · simp [hd, eq_comm]
  · cases ha : atoi s <;> simp [hd, ha, eq_comm]

lemma atoi_nonneg {s : String} {v : Int} (h : atoi s = some v)
    (hd : s.data.head? ≠ some '-') : 0 ≤ v := by
  cases hcs : s.data with
  | nil => simp only [atoi, hcs] at h; cases h
  | cons c cs =>
    simp only [atoi, hcs] at h
    rw [hcs] at hd
    simp only [List.head?_cons, ne_eq, Option.some.injEq] at hd
    rw [if_neg hd] at h
    split at h
    · cases h
    · split at h
      · injection h with h
        exact h ▸ Int.natCast_nonneg _
      · cases h

lemma parseValue_nonneg {s : String} {v : Int} (h : parseValue s = .ok v)
    (hd : s = "-" ∨ s.data.head? ≠ some '-') : 0 ≤ v := by
  rcases parseValue_ok_iff.mp h with ⟨_, rfl⟩ | ⟨hne, ha⟩
  · exact le_refl 0
  · rcases hd with rfl | hd
    · exact absurd rfl hne
    · exact atoi_nonneg ha hd

lemma extractValues_error_spec : ∀ {rows : List Row} {e : String},
    extractValues rows = .error e →
    ∃ r ∈ rows, r.cells.length = 2 ∧ tdLast r = e ∧ e ≠ "-" ∧ atoi e = none := by
  intro rows
  induction rows with
  | nil => intro e h; simp [extractValues] at h
  | cons r rs ih =>
    intro e h
    unfold extractValues at h
    by_cases h2 : r.cells.length = 2
    · rw [if_pos h2] at h
      cases hp : parseValue (tdLast r) with
      | error e' =>
        rw [hp] at h
        injection h with h
        subst h
        rcases parseValue_error_iff.mp hp with ⟨hne, ha, rfl⟩
        exact ⟨r, List.mem_cons_self r rs, h2, rfl, hne, ha⟩
      | ok v =>
        rw [hp] at h
        cases hrec : extractValues rs with
        | error e' =>
          rw [hrec] at h
          injection h with h
          subst h
          obtain ⟨r', hr', hspec⟩ := ih hrec
          exact ⟨r', List.mem_cons_of_mem r hr', hspec⟩
        | ok vs => rw [hrec] at h; cases h
    · rw [if_neg h2] at h
      obtain ⟨r', hr', hspec⟩ := ih h
      exact ⟨r', List.mem_cons_of_mem r hr', hspec⟩

lemma extractValues_ok_forall : ∀ {rows : List Row} {vs : List forecastValue},
    extractValues rows = .ok vs →
    ∀ r ∈ rows, r.cells.length = 2 → ∃ v, parseValue (tdLast r) = .ok v := by
  intro rows
  induction rows with
  | nil => intro vs _ r hr; cases hr
  | cons r rs ih =>
    intro vs h r' hr' h2'
    unfold extractValues at h
    by_cases h2 : r.cells.length = 2
    · rw [if_pos h2] at h
      cases hp : parseValue (tdLast r) with
      | error e => rw [hp] at h; cases h
      | ok v =>
        rw [hp] at h
        cases hrec : extractValues rs with
        | error e => rw [hrec] at h; cases h
        | ok vs' =>
          rcases List.mem_cons.mp hr' with rfl | hmem
          · exact ⟨v, hp⟩
          · exact ih hrec r' hmem h2'
    · rw [if_neg h2] at h
      rcases List.mem_cons.mp hr' with rfl | hmem
      · exact absurd h2' h2
      · exact ih h r' hmem h2'

lemma extractValues_ok_mem : ∀ {rows : List Row} {vs : List forecastValue},
    extractValues rows = .ok vs →
    ∀ m ∈ vs, ∃ r ∈ rows, r.cells.length = 2 ∧ tdFirst r = m.name ∧
      parseValue (tdLast r) = .ok m.value := by
  intro rows
  induction rows with
  | nil =>
    intro vs h m hm
    simp [extractValues] at h
    subst h
    cases hm
  | cons r rs ih =>
    intro vs h m hm
    unfold extractValues at h
    by_cases h2 : r.cells.length = 2
    · rw [if_pos h2] at h
      cases hp : parseValue (tdLast r) with
      | error e => rw [hp] at h; cases h
      | ok v =>
        rw [hp] at h
        cases hrec : extractValues rs with
        | error e => rw [hrec] at h; cases h
        | ok vs' =>
          rw [hrec] at h
          injection h with h
          subst h
          rcases List.mem_cons.mp hm with rfl | hmem
          · exact ⟨r, List.mem_cons_self r rs, h2, rfl, hp⟩
          · obtain ⟨r', hr', hspec⟩ := ih hrec m hmem
            exact ⟨r', List.mem_cons_of_mem r hr', hspec⟩
    · rw [if_neg h2] at h
      obtain ⟨r', hr', hspec⟩ := ih h m hm
      exact ⟨r', List.mem_cons_of_mem r hr', hspec⟩

lemma extractValues_ok_of_forall : ∀ {rows : List Row},
    (∀ r ∈ rows, r.cells.length = 2 → ∃ v, parseValue (tdLast r) = .ok v) →
    ∃ vs, extractValues rows = .ok vs ∧
      vs.length = (rows.filter fun r => r.cells.length == 2).length := by
  intro rows
  induction rows with
  | nil => intro _; exact ⟨[], rfl, rfl⟩
  | cons r rs ih =>
    intro h
    obtain ⟨vs, hvs, hlen⟩ := ih (fun r' hr' => h r' (List.mem_cons_of_mem r hr'))
    by_cases h2 : r.cells.length = 2
    · obtain ⟨v, hv⟩ := h r (List.mem_cons_self r rs) h2
      refine ⟨{ name := tdFirst r, value := v } :: vs, ?_, ?_⟩
      · unfold extractValues
        rw [if_pos h2, hv, hvs]
      · simp [List.filter_cons, h2, hlen]
    · refine ⟨vs, ?_, ?_⟩
      · unfold extractValues
        rw [if_neg h2]
        exact hvs
      · simp [List.filter_cons, h2, hlen]

lemma extractValues_nil_of_no_two_cell : ∀ {rows : List Row},
    (∀ r ∈ rows, r.cells.length ≠ 2) → extractValues rows = .ok [] := by
  intro rows
  induction rows with
  | nil => intro _; rfl
  | cons r rs ih =>
    intro h
    unfold extractValues
    rw [if_neg (h r (List.mem_cons_self r rs))]
    exact ih fun r' hr' => h r' (List.mem_cons_of_mem r hr')

lemma extractBlock_ok_spec {b : Blk} {f : forecast} (h : extractBlock b = .ok f) :
    f.cityName = trFirstText b ∧ f.forecastText = trLastText b ∧
      extractValues b.rows = .ok f.values := by
  unfold extractBlock at h
  cases hv : extractValues b.rows with
  | error e => rw [hv] at h; cases h
  | ok vs =>
    rw [hv] at h
    injection h with h
    subst h
    exact ⟨rfl, rfl, rfl⟩

lemma extractBlock_error_spec {b : Blk} {e : String} (h : extractBlock b = .error e) :
    extractValues b.rows = .error e := by
  unfold extractBlock at h
  cases hv : extractValues b.rows with
  | error e' => rw [hv] at h; injection h with h; subst h; rfl
  | ok vs => rw [hv] at h; cases h

lemma extractForecasts_error_spec : ∀ {blocks : List Blk} {e : String},
    extractForecasts blocks = .error e →
    ∃ b ∈ blocks, ∃ r ∈ b.rows, r.cells.length = 2 ∧ tdLast r = e ∧ e ≠ "-" ∧
      atoi e = none := by
  intro blocks
  induction blocks with
  | nil => intro e h; simp [extractForecasts] at h
  | cons b bs ih =>
    intro e h
    unfold extractForecasts at h
    cases hb : extractBlock b with
    | error e' =>
      rw [hb] at h
      injection h with h
      subst h
      obtain ⟨r, hr, hspec⟩ := extractValues_error_spec (extractBlock_error_spec hb)
      exact ⟨b, List.mem_cons_self b bs, r, hr, hspec⟩
    | ok f =>
      rw [hb] at h
      cases hrec : extractForecasts bs with
      | error e' =>
        rw [hrec] at h
        injection h with h
        subst h
        obtain ⟨b', hb', hspec⟩ := ih hrec
        exact ⟨b', List.mem_cons_of_mem b hb', hspec⟩
      | ok fs => rw [hrec] at h; cases h

lemma extractForecasts_ok_forall : ∀ {blocks : List Blk} {fs : List forecast},
    extractForecasts blocks = .ok fs →
    ∀ b ∈ blocks, ∀ r ∈ b.rows, r.cells.length = 2 →
      ∃ v, parseValue (tdLast r) = .ok v := by
  intro blocks
  induction blocks with
  | nil => intro fs _ b hb; cases hb
  | cons b bs ih =>
    intro fs h b' hb' r hr h2
    unfold extractForecasts at h
    cases hb'' : extractBlock b with
    | error e => rw [hb''] at h; cases h
    | ok f =>
      rw [hb''] at h
      cases hrec : extractForecasts bs with
      | error e => rw [hrec] at h; cases h
      | ok fs' =>
        rcases List.mem_cons.mp hb' with rfl | hmem
        · exact extractValues_ok_forall (extractBlock_ok_spec hb'').2.2 r hr h2
        · exact ih hrec b' hmem r hr h2

lemma extractForecasts_ok_mem : ∀ {blocks : List Blk} {fs : List forecast},
    extractForecasts blocks = .ok fs →
    ∀ f ∈ fs, ∀ m ∈ f.values, ∃ b ∈ blocks, ∃ r ∈ b.rows,
      r.cells.length = 2 ∧ parseValue (tdLast r) = .ok m.value := by
  intro blocks
  induction blocks with
  | nil =>
    intro fs h f hf
    simp [extractForecasts] at h
    subst h
    cases hf
  | cons b bs ih =>
    intro fs h f hf m hm
    unfold extractForecasts at h
    cases hb : extractBlock b with
    | error e => rw [hb] at h; cases h
    | ok f' =>
      rw [hb] at h
      cases hrec : extractForecasts bs with
      | error e => rw [hrec] at h; cases h
      | ok fs' =>
        rw [hrec] at h
        injection h with h
        subst h
        rcases List.mem_cons.mp hf with rfl | hmem
        · obtain ⟨r, hr, h2, _, hp⟩ :=
            extractValues_ok_mem (extractBlock_ok_spec hb).2.2 m hm
          exact ⟨b, List.mem_cons_self b bs, r, hr, h2, hp⟩
        · obtain ⟨b', hb', hspec⟩ := ih hrec f hmem m hm
          exact ⟨b', List.mem_cons_of_mem b hb', hspec⟩

lemma extractForecasts_ok_of_forall : ∀ {blocks : List Blk},
    (∀ b ∈ blocks, ∀ r ∈ b.rows, r.cells.length = 2 →
      ∃ v, parseValue (tdLast r) = .ok v) →
    ∃ fs, extractForecasts blocks = .ok fs ∧
      List.Forall₂ (fun (f : forecast) (b : Blk) =>
        f.cityName = trFirstText b ∧ f.forecastText = trLastText b ∧
        f.values.length = (b.rows.filter fun r => r.cells.length == 2).length)
        fs blocks := by
  intro blocks
  induction blocks with
  | nil => intro _; exact ⟨[], rfl, List.Forall₂.nil⟩
  | cons b bs ih =>
    intro h
    obtain ⟨fs, hfs, hrel⟩ := ih (fun b' hb' => h b' (List.mem_cons_of_mem b hb'))
    obtain ⟨vs, hvs, hlen⟩ :=
      extractValues_ok_of_forall (h b (List.mem_cons_self b bs))
    refine ⟨{ cityName := trFirstText b, forecastText := trLastText b, values := vs } :: fs,
      ?_, ?_⟩
    · unfold extractForecasts extractBlock
      rw [hvs, hfs]
    · exact List.Forall₂.cons ⟨rfl, rfl, hlen⟩ hrel

lemma attemptFails_iff_not_succeeds (inp : Except String (List Blk)) :
    attemptFails inp ↔ ¬ attemptSucceeds inp := by
  cases inp with
  | error e => simp [attemptFails, attemptSucceeds]
  | ok blocks =>
    cases h : extractForecasts blocks <;>
      simp [attemptFails, attemptSucceeds, h]

lemma rebuildCache_of_fails {inp : Except String (List Blk)}
    (h : attemptFails inp) (s : CacheState) :
    ∃ e, rebuildCache inp s = (.error e, s) := by
  rcases h with ⟨e, rfl⟩ | ⟨blocks, rfl, e, he⟩
  · exact ⟨"error fetching from URL: " ++ e, rfl⟩
  · exact ⟨e, by simp [rebuildCache, he]⟩

lemma rebuildCache0_of_fails {inp : Except String (List Blk)}
    (h : attemptFails inp) (now : Nat) (s : CacheState0) :
    ∃ e, rebuildCache0 inp now s = (.error e, s) := by
  rcases h with ⟨e, rfl⟩ | ⟨blocks, rfl, e, he⟩
  · exact ⟨"error fetching from URL: " ++ e, rfl⟩
  · exact ⟨e, by simp [rebuildCache0, he]⟩

lemma rebuildCache_of_succeeds {inp : Except String (List Blk)}
    (h : attemptSucceeds inp) (s : CacheState) :
    ∃ fs, rebuildCache inp s = (.ok (), ⟨some fs⟩) := by
  rcases h with ⟨blocks, rfl, fs, hfs⟩
  exact ⟨fs, by simp [rebuildCache, hfs]⟩

lemma fetchCache_error_iff (s : CacheState) :
    (fetchCache s).1 = .error cacheEmptyMsg ↔ s.cache = none := by
  obtain ⟨c⟩ := s
  cases c <;> simp [fetchCache]

lemma runRebuilds_cons (inp : Except String (List Blk))
    (rest : List (Except String (List Blk))) (s : CacheState) :
    runRebuilds (inp :: rest) s = runRebuilds rest (rebuildCache inp s).2 := rfl

lemma runRebuilds_cache_none_iff : ∀ (inputs : List (Except String (List Blk)))
    (s : CacheState), (runRebuilds inputs s).cache = none ↔
      (s.cache = none ∧ ∀ inp ∈ inputs, ¬ attemptSucceeds inp) := by
  intro inputs
  induction inputs with
  | nil => intro s; simp [runRebuilds]
  | cons inp rest ih =>
    intro s
    rw [runRebuilds_cons, ih]
    by_cases h : attemptSucceeds inp
    · obtain ⟨fs, hr⟩ := rebuildCache_of_succeeds h s
      rw [hr]
      simp [h]
    · obtain ⟨e, hr⟩ := rebuildCache_of_fails
        ((attemptFails_iff_not_succeeds inp).mpr h) s
      rw [hr]
      simp [h, List.forall_mem_cons]

lemma parseValue_main_eq (s : String) : parseValue_main s = parseValue s := rfl

lemma parseValue_part0_eq (s : String) : parseValue_part0 s = parseValue s := rfl

lemma extractValues_main_eq : ∀ rows : List Row,
    extractValues_main rows = extractValues rows := by
  intro rows
  induction rows with
  | nil => rfl
  | cons r rs ih =>
    unfold extractValues_main extractValues
    rw [parseValue_main_eq, ih]

lemma extractValues_part0_eq : ∀ rows : List Row,
    extractValues_part0 rows = extractValues rows := by
  intro rows
  induction rows with
  | nil => rfl
  | cons r rs ih =>
    unfold extractValues_part0 extractValues
    rw [parseValue_part0_eq, ih]

lemma extractForecasts_main_eq : ∀ blocks : List Blk,
    extractForecasts_main blocks = extractForecasts blocks := by
  intro blocks
  induction blocks with
  | nil => rfl
  | cons b bs ih =>
    unfold extractForecasts_main extractForecasts extractBlock
    rw [extractValues_main_eq, ih]
    cases extractValues b.rows <;> cases extractForecasts bs <;> rfl

lemma extractForecasts_part0_eq : ∀ blocks : List Blk,
    extractForecasts_part0 blocks = extractForecasts blocks := by
  intro blocks
  induction blocks with
  | nil => rfl
  | cons b bs ih =>
    unfold extractForecasts_part0 extractForecasts extractBlock
    rw [extractValues_part0_eq, ih]
    cases extractValues b.rows <;> cases extractForecasts bs <;> rfl

/-! ### Claim theorems -/

/-- C1: for every input document containing a measurement row (exactly two
cells) whose second-cell text is neither the literal `"-"` nor a valid
base-10 integer, extraction fails with a parse error carrying the
offending string, and no snapshot — not even a partial one — is produced:
a rebuild on such a document returns the error and leaves the cache state
exactly as it was. -/
theorem extract_fails_on_unparsable_value (blocks : List Blk)
    (h : ∃ b ∈ blocks, ∃ r ∈ b.rows,
      r.cells.length = 2 ∧ tdLast r ≠ "-" ∧ atoi (tdLast r) = none) :
    ∃ e, extractForecasts blocks = .error e ∧
      (∃ b ∈ blocks, ∃ r ∈ b.rows,
        r.cells.length = 2 ∧ tdLast r = e ∧ e ≠ "-" ∧ atoi e = none) ∧
      ∀ s : CacheState, rebuildCache (.ok blocks) s = (.error e, s) := by
  cases hx : extractForecasts blocks with
  | ok fs =>
    exfalso
    obtain ⟨b, hb, r, hr, h2, hne, ha⟩ := h
    obtain ⟨v, hv⟩ := extractForecasts_ok_forall hx b hb r hr h2
    rcases parseValue_ok_iff.mp hv with ⟨hdash, _⟩ | ⟨_, hsome⟩
    · exact hne hdash
    · rw [ha] at hsome; cases hsome
  | error e =>
    refine ⟨e, rfl, extractForecasts_error_spec hx, ?_⟩
    intro s
    simp [rebuildCache, hx]

/-- Witness for C1 at the concrete document `badDoc` (value text `"abc"`). -/
theorem extract_fails_on_unparsable_value_witness :
    (∃ b ∈ badDoc, ∃ r ∈ b.rows,
      r.cells.length = 2 ∧ tdLast r ≠ "-" ∧ atoi (tdLast r) = none) ∧
    ∃ e, extractForecasts badDoc = .error e ∧
      (∃ b ∈ badDoc, ∃ r ∈ b.rows,
        r.cells.length = 2 ∧ tdLast r = e ∧ e ≠ "-" ∧ atoi e = none) ∧
      ∀ s : CacheState, rebuildCache (.ok badDoc) s = (.error e, s) := by
  have hyp : ∃ b ∈ badDoc, ∃ r ∈ b.rows,
      r.cells.length = 2 ∧ tdLast r ≠ "-" ∧ atoi (tdLast r) = none := by decide
  exact ⟨hyp, extract_fails_on_unparsable_value badDoc hyp⟩

/-- C2: `fetchCache` (the cache read): with no snapshot present it emits
exactly one asynchronous rebuild trigger (the `Bool` signal, modelling the
fire-and-forget `go rebuildCache()`) and fails immediately with the
`CacheEmpty` error, its result not depending on the triggered rebuild and
the state left untouched (non-blocking); with a snapshot present it
returns the snapshot and triggers nothing. -/
theorem fetchCache_read_contract (s : CacheState) :
    (s.cache = none → fetchCache s = (.error cacheEmptyMsg, true)) ∧
    (∀ fs, s.cache = some fs → fetchCache s = (.ok fs, false)) := by
  obtain ⟨c⟩ := s
  constructor
  · intro h
    cases c with
    | none => rfl
    | some fs => simp at h
  · intro fs h
    cases c with
    | none => simp at h
    | some fs' =>
      have hfs : fs' = fs := by simpa using h
      subst hfs
      rfl

/-- Witness for C2 at the empty and at a populated cache state. -/
theorem fetchCache_read_contract_witness :
    fetchCache ⟨none⟩ = (.error cacheEmptyMsg, true) ∧
    fetchCache ⟨some aarhusResult⟩ = (.ok aarhusResult, false) :=
  ⟨(fetchCache_read_contract ⟨none⟩).1 rfl,
   (fetchCache_read_contract ⟨some aarhusResult⟩).2 aarhusResult rfl⟩

/-- C3: for every rebuild attempt whose fetch or extraction fails, the
cached snapshot is left exactly as it was (in `part_000` the timestamp
too), the error is returned to the caller of the rebuild, and a subsequent
read returns the previous good snapshot if one existed, or `CacheEmpty` if
none did. (The lock-release itself is implicit in the sequential
state-transition model: the failing transition completes and later
operations run.) -/
theorem rebuild_failure_preserves_snapshot (inp : Except String (List Blk))
    (h : attemptFails inp) :
    ∀ (s : CacheState) (now : Nat) (s0 : CacheState0),
      (∃ e, rebuildCache inp s = (.error e, s)) ∧
      (s.cache = none →
        (fetchCache (rebuildCache inp s).2).1 = .error cacheEmptyMsg) ∧
      (∀ fs, s.cache = some fs →
        (fetchCache (rebuildCache inp s).2).1 = .ok fs) ∧
      (∃ e, rebuildCache0 inp now s0 = (.error e, s0)) := by
  intro s now s0
  obtain ⟨e, hr⟩ := rebuildCache_of_fails h s
  obtain ⟨e0, hr0⟩ := rebuildCache0_of_fails h now s0
  refine ⟨⟨e, hr⟩, ?_, ?_, ⟨e0, hr0⟩⟩
  · intro hn
    rw [hr]
    simp [fetchCache, hn]
  · intro fs hfs
    rw [hr]
    simp [fetchCache, hfs]

/-- Witness for C3: a failed fetch against a populated `part_001` state
and a populated `part_000` state. -/
theorem rebuild_failure_preserves_snapshot_witness :
    attemptFails (.error "connection refused") ∧
    ((∃ e, rebuildCache (.error "connection refused") ⟨some aarhusResult⟩ =
        (.error e, ⟨some aarhusResult⟩)) ∧
     ((⟨some aarhusResult⟩ : CacheState).cache = none →
       (fetchCache (rebuildCache (.error "connection refused")
          ⟨some aarhusResult⟩).2).1 = .error cacheEmptyMsg) ∧
     (∀ fs, (⟨some aarhusResult⟩ : CacheState).cache = some fs →
       (fetchCache (rebuildCache (.error "connection refused")
          ⟨some aarhusResult⟩).2).1 = .ok fs) ∧
     (∃ e, rebuildCache0 (.error "connection refused") 7 ⟨some aarhusResult, 3⟩ =
        (.error e, ⟨some aarhusResult, 3⟩))) := by
  have h : attemptFails (.error "connection refused") :=
    Or.inl ⟨"connection refused", rfl⟩
  exact ⟨h, rebuild_failure_preserves_snapshot _ h ⟨some aarhusResult⟩ 7
    ⟨some aarhusResult, 3⟩⟩

/-- C4: every measurement row (exactly two cells) yields a measurement
whose name is the first cell's text and whose value is `0` for the literal
`"-"` and otherwise the second cell's text parsed as a base-10 integer
(failing when it does not parse); and on the Scenario A document the
extraction yields the single record
`{ "Aarhus", <last-row-text>, [{"Birk",12},{"El",0}] }`. -/
theorem measurement_row_mapping :
    (∀ (r : Row) (n v : String), r.cells = [n, v] →
      extractValues [r] =
        (if v = "-" then .ok [⟨n, 0⟩]
         else
           match atoi v with
           | some k => .ok [⟨n, k⟩]
           | none => .error v)) ∧
    extractForecasts aarhusDoc = .ok aarhusResult := by
  constructor
  · intro r n v hc
    obtain ⟨cells, txt⟩ := r
    simp only at hc
    subst hc
    by_cases hd : v = "-"
    · subst hd
      rfl
    · have hstep : extractValues [⟨[n, v], txt⟩] =
          match parseValue v with
          | .error e => .error e
          | .ok k => .ok [⟨n, k⟩] := rfl
      rw [hstep, if_neg hd]
      have hpv : parseValue v =
          match atoi v with
          | some k => .ok k
          | none => .error v := by
        simp [parseValue, hd]
      rw [hpv]
      cases atoi v <;> rfl
  · rfl

/-- Witness for C4 at the concrete row `("Birk","12")`. -/
theorem measurement_row_mapping_witness :
    extractValues [rowBirk12] = .ok [⟨"Birk", 12⟩] := by
  have h := measurement_row_mapping.1 rowBirk12 "Birk" "12" rfl
  exact h.trans rfl

/-- C5: for every document in which each measurement value text is the
placeholder or parses as an integer, extraction succeeds with exactly one
record per block, in document order (paired positionally with the blocks,
each carrying its block's first-row and last-row texts), and each record's
measurement count equals the number of two-cell rows of its block. -/
theorem extract_valid_counts (blocks : List Blk)
    (h : ∀ b ∈ blocks, ∀ r ∈ b.rows, r.cells.length = 2 →
      tdLast r = "-" ∨ atoi (tdLast r) ≠ none) :
    ∃ fs, extractForecasts blocks = .ok fs ∧ fs.length = blocks.length ∧
      List.Forall₂ (fun (f : forecast) (b : Blk) =>
        f.cityName = trFirstText b ∧ f.forecastText = trLastText b ∧
        f.values.length = (b.rows.filter fun r => r.cells.length == 2).length)
        fs blocks := by
  have h' : ∀ b ∈ blocks, ∀ r ∈ b.rows, r.cells.length = 2 →
      ∃ v, parseValue (tdLast r) = .ok v := by
    intro b hb r hr h2
    rcases h b hb r hr h2 with hd | ha
    · exact ⟨0, by simp [parseValue, hd]⟩
    · cases hav : atoi (tdLast r) with
      | none => exact absurd hav ha
      | some k =>
        by_cases hdd : tdLast r = "-"
        · exact ⟨0, by simp [parseValue, hdd]⟩
        · exact ⟨k, by simp [parseValue, hdd, hav]⟩
  obtain ⟨fs, hfs, hrel⟩ := extractForecasts_ok_of_forall h'
  exact ⟨fs, hfs, hrel.length_eq, hrel⟩

/-- Witness for C5 at the Scenario A document. -/
theorem extract_valid_counts_witness :
    (∀ b ∈ aarhusDoc, ∀ r ∈ b.rows, r.cells.length = 2 →
      tdLast r = "-" ∨ atoi (tdLast r) ≠ none) ∧
    ∃ fs, extractForecasts aarhusDoc = .ok fs ∧
      fs.length = aarhusDoc.length ∧
      List.Forall₂ (fun (f : forecast) (b : Blk) =>
        f.cityName = trFirstText b ∧ f.forecastText = trLastText b ∧
        f.values.length = (b.rows.filter fun r => r.cells.length == 2).length)
        fs aarhusDoc := by
  have hyp : ∀ b ∈ aarhusDoc, ∀ r ∈ b.rows, r.cells.length = 2 →
      tdLast r = "-" ∨ atoi (tdLast r) ≠ none := by decide
  exact ⟨hyp, extract_valid_counts aarhusDoc hyp⟩

/-- C6: for every block whose extraction succeeds, `locationName` is the
full text of the block's first row and `summaryText` the full text of its
last row; a block with zero rows yields empty strings for both fields (and
no error); a block with zero two-cell rows yields a record whose
measurement sequence is empty, not an error. -/
theorem block_header_summary_mapping :
    (∀ (b : Blk) (f : forecast), extractBlock b = .ok f →
      f.cityName = (b.rows.head?.map Row.text).getD "" ∧
      f.forecastText = (b.rows.getLast?.map Row.text).getD "") ∧
    extractBlock ⟨[]⟩ = .ok ⟨"", "", []⟩ ∧
    (∀ b : Blk, (∀ r ∈ b.rows, r.cells.length ≠ 2) →
      extractBlock b = .ok ⟨trFirstText b, trLastText b, []⟩) := by
  refine ⟨?_, rfl, ?_⟩
  · intro b f h
    obtain ⟨h1, h2, _⟩ := extractBlock_ok_spec h
    exact ⟨h1, h2⟩
  · intro b h
    unfold extractBlock
    rw [extractValues_nil_of_no_two_cell h]

/-- Witness for C6 at a block whose only row has three cells. -/
theorem block_header_summary_mapping_witness :
    (∀ r ∈ hdrBlock.rows, r.cells.length ≠ 2) ∧
    extractBlock hdrBlock = .ok ⟨"abc row", "abc row", []⟩ := by
  have hyp : ∀ r ∈ hdrBlock.rows, r.cells.length ≠ 2 := by decide
  exact ⟨hyp, block_header_summary_mapping.2.2 hdrBlock hyp⟩

/-- C7 counterexample: at the concrete failed rebuild result
`.error "fetch failed"`, both periodic schedulers (`refreshCacheJob` of
`part_000` and of `part_001`) terminate the process (`log.Fatalln`);
no variant merely logs and continues, contradicting the claim that one of
them treats the failure as non-fatal. -/
theorem refresh_failure_policy_counterexample :
    refreshStep_part0 (.error "fetch failed") = .terminated "fetch failed" ∧
    refreshStep_part1 (.error "fetch failed") = .terminated "fetch failed" :=
  ⟨rfl, rfl⟩

/-- C7 amended: both source variants with a periodic refresh scheduler
treat a failed periodic rebuild as fatal to the whole process
(`log.Fatalln` terminates); their reaction to a rebuild result is
identical; the two variants differ only in loop ordering — `part_000`
rebuilds immediately and then waits for the 10-minute tick, while
`part_001` waits for a tick before each rebuild. -/
theorem refresh_failure_policy_amended :
    (∀ e, refreshStep_part0 (.error e) = .terminated e) ∧
    (∀ e, refreshStep_part1 (.error e) = .terminated e) ∧
    (∀ r, refreshStep_part0 r = refreshStep_part1 r) ∧
    loopBody_part0 ≠ loopBody_part1 := by
  refine ⟨fun e => rfl, fun e => rfl, ?_, by decide⟩
  intro r
  cases r <;> rfl

/-- C8 counterexample: `strconv.Atoi` accepts a leading minus sign, so the
document whose only measurement row carries the value text `"-5"` extracts
successfully into a snapshot containing the negative value `-5` —
refuting the claim that every measurement value of a successful snapshot
is non-negative. -/
theorem snapshot_values_nonneg_counterexample :
    extractForecasts negDoc = .ok [⟨"X -5", "X -5", [⟨"X", -5⟩]⟩] ∧
    (⟨"X", -5⟩ : forecastValue).value < 0 :=
  ⟨rfl, by decide⟩

/-- C8 amended: for every snapshot returned by a successful extraction,
every measurement value is non-negative provided each two-cell row's value
text is the placeholder `"-"` or does not begin with a minus sign; in
general a value equals the base-10 parse of the cell text, which is
negative exactly when the text carries a negative literal. -/
theorem snapshot_values_nonneg_amended (blocks : List Blk)
    (fs : List forecast) (hok : extractForecasts blocks = .ok fs)
    (hns : ∀ b ∈ blocks, ∀ r ∈ b.rows, r.cells.length = 2 →
      tdLast r = "-" ∨ (tdLast r).data.head? ≠ some '-') :
    ∀ f ∈ fs, ∀ m ∈ f.values, 0 ≤ m.value := by
  intro f hf m hm
  obtain ⟨b, hb, r, hr, h2, hp⟩ := extractForecasts_ok_mem hok f hf m hm
  exact parseValue_nonneg hp (hns b hb r hr h2)

/-- Witness for the C8 amendment at the Scenario A document. -/
theorem snapshot_values_nonneg_amended_witness :
    extractForecasts aarhusDoc = .ok aarhusResult ∧
    (∀ b ∈ aarhusDoc, ∀ r ∈ b.rows, r.cells.length = 2 →
      tdLast r = "-" ∨ (tdLast r).data.head? ≠ some '-') ∧
    ∀ f ∈ aarhusResult, ∀ m ∈ f.values, 0 ≤ m.value := by
  have hok : extractForecasts aarhusDoc = .ok aarhusResult := rfl
  have hns : ∀ b ∈ aarhusDoc, ∀ r ∈ b.rows, r.cells.length = 2 →
      tdLast r = "-" ∨ (tdLast r).data.head? ≠ some '-' := by decide
  exact ⟨hok, hns, snapshot_values_nonneg_amended aarhusDoc aarhusResult hok hns⟩

/-- C9: a successful rebuild of a document with zero matching blocks
publishes the empty but present snapshot `some []` (the non-nil empty
slice built by `make([]forecast, 0, 0)`), after which a read succeeds with
the empty record sequence; and starting from the cold state, a read fails
with `CacheEmpty` if and only if no rebuild attempt in the history
succeeded. -/
theorem empty_snapshot_and_cache_empty_iff :
    (∀ s : CacheState, rebuildCache (.ok []) s = (.ok (), ⟨some []⟩) ∧
      fetchCache ⟨some ([] : List forecast)⟩ = (.ok [], false)) ∧
    ∀ inputs : List (Except String (List Blk)),
      ((fetchCache (runRebuilds inputs initialCache)).1 = .error cacheEmptyMsg ↔
        ∀ inp ∈ inputs, ¬ attemptSucceeds inp) := by
  constructor
  · intro s
    exact ⟨rfl, rfl⟩
  · intro inputs
    rw [fetchCache_error_iff, runRebuilds_cache_none_iff]
    simp [initialCache]

/-- Witness for C9: a history of one failed fetch followed by one
successful rebuild of the unparsable document still reads as
`CacheEmpty`. -/
theorem empty_snapshot_and_cache_empty_iff_witness :
    (fetchCache (runRebuilds [.error "unreachable", .ok badDoc] initialCache)).1 =
        .error cacheEmptyMsg ↔
      ∀ inp ∈ [Except.error "unreachable", Except.ok badDoc],
        ¬ attemptSucceeds inp :=
  empty_snapshot_and_cache_empty_iff.2 [.error "unreachable", .ok badDoc]

/-- C10: the extraction pipelines of the three source variants
(`fetchParseAndJsonify` in `main.go`, `rebuildCache` in `part_000`,
`rebuildCache` in `part_001`) are equivalent: on every document they
produce the same record sequence on success and the same parse error on
the same malformed input. -/
theorem extraction_variants_equivalent (blocks : List Blk) :
    extractForecasts_main blocks = extractForecasts blocks ∧
    extractForecasts_part0 blocks = extractForecasts blocks :=
  ⟨extractForecasts_main_eq blocks, extractForecasts_part0_eq blocks⟩

end Pollen
